import Mathlib

/-!
Verification of the To-Do REST backend (FastAPI CRUD service).

The API layer is embedded from src/backend/main.py. The persistence layer
(the SQLAlchemy `Task` model and session, files models.py / database.py)
is not part of src/, so the store is modelled from the spec (section 4.1
"Task Store"): a list of records kept in insertion order, an
auto-incrementing identity counter, and a creation timestamp stamped by the
store at insert time.
-/

namespace TodoApi

/-- One field of a JSON request body: absent from the object, explicitly
`null`, or carrying a value.  This distinction is what pydantic sees before
validation fills in defaults. -/
inductive JsonField (α : Type) where
  | omitted
  | null
  | value (a : α)
deriving Repr, DecidableEq

/-- Modelled from the spec: the ORM record `models.Task` (models.py is not
under src/).  Spec section 3: `id` integer surrogate key; `title` text;
`description` text nullable; `completed` boolean; `created_at` timestamp
set by the store at insertion (modelled as a natural-number clock value). -/
structure Task where
  id : Nat
  title : String
  description : Option String
  completed : Bool
  created_at : Nat
deriving Repr, DecidableEq

/-- Modelled from the spec: the task store (database.py is not under src/).
Records are kept in insertion order; `nextId` is the auto-increment
counter for the surrogate primary key. -/
structure Store where
  tasks : List Task
  nextId : Nat
deriving Repr, DecidableEq

def Store.empty : Store := ⟨[], 1⟩

/-- `db.query(Task).filter(Task.id == task_id).first()`: point lookup by
primary key. -/
def Store.queryFirst (s : Store) (id : Nat) : Option Task :=
  s.tasks.find? (fun t => t.id == id)

/-- Modelled from the spec: store insert (spec 4.1 `create`): assigns the
next identity value, stamps `created_at` with the store clock `now`,
appends the row, returns the fully populated record. -/
def Store.insert (s : Store) (title : String) (descr : Option String)
    (completed : Bool) (now : Nat) : Task × Store :=
  let t : Task := ⟨s.nextId, title, descr, completed, now⟩
  (t, ⟨s.tasks ++ [t], s.nextId + 1⟩)

/-- Committing an in-place mutation of a fetched row: the row with the
same primary key is replaced by the mutated record. -/
def Store.commitUpdate (s : Store) (t : Task) : Store :=
  ⟨s.tasks.map (fun u => if u.id == t.id then t else u), s.nextId⟩

/-- `db.delete(db_task); db.commit()`: removes the row with that primary
key (hard delete). -/
def Store.deleteById (s : Store) (id : Nat) : Store :=
  ⟨s.tasks.filter (fun u => u.id != id), s.nextId⟩

/-- Store well-formedness: ids of the rows are strictly increasing in
insertion order (hence unique) and below the auto-increment counter. -/
def Store.WF (s : Store) : Prop :=
  (∀ t ∈ s.tasks, t.id < s.nextId) ∧ (s.tasks.map Task.id).Pairwise (· < ·)

instance (s : Store) : Decidable s.WF := by
  unfold Store.WF; infer_instance

/-- Pydantic schema `TaskCreate` (= `TaskBase`, main.py lines 27-33) after
validation: `title: str`, `description: Optional[str] = ""`,
`completed: bool = False`. -/
structure TaskCreate where
  title : String
  description : Option String
  completed : Bool
deriving Repr, DecidableEq

/-- Pydantic schema `TaskUpdate` (main.py lines 35-38) after validation:
every field `Optional[...] = None`. -/
structure TaskUpdate where
  title : Option String
  description : Option String
  completed : Option Bool
deriving Repr, DecidableEq

/-- A raw POST /tasks JSON body: `title` required; `description` may be
omitted, null, or a string; `completed` may be omitted or a boolean. -/
structure CreateBody where
  title : String
  description : JsonField String
  completed : Option Bool
deriving Repr, DecidableEq

/-- A raw PUT /tasks/{id} JSON body: each field omitted, null, or valued. -/
structure UpdateBody where
  title : JsonField String
  description : JsonField String
  completed : JsonField Bool
deriving Repr, DecidableEq

/-- Pydantic validation of `TaskCreate`: an omitted `description` takes the
default `""`; an explicit `null` validates to `None` (the field is
`Optional[str]`); an omitted `completed` takes the default `False`. -/
def validateCreate (b : CreateBody) : TaskCreate :=
  ⟨b.title,
   match b.description with
   | .omitted => some ""
   | .null => none
   | .value s => some s,
   b.completed.getD false⟩

/-- Pydantic validation of one `Optional[...] = None` field: both an
omitted field and an explicit `null` validate to `None`. -/
def resolveOptional {α : Type} (f : JsonField α) : Option α :=
  match f with
  | .omitted => none
  | .null => none
  | .value a => some a

/-- Pydantic validation of `TaskUpdate`: every field is
`Optional[...] = None`. -/
def validateUpdate (b : UpdateBody) : TaskUpdate :=
  ⟨resolveOptional b.title, resolveOptional b.description,
   resolveOptional b.completed⟩

/-- `HTTPException(status_code=..., detail=...)` as surfaced to clients. -/
structure HTTPError where
  status : Nat
  detail : String
deriving Repr, DecidableEq

def taskNotFound : HTTPError := ⟨404, "Task not found"⟩

/-- `GET /tasks` (main.py lines 48-52): `db.query(Task).all()`. -/
def get_tasks (db : Store) : List Task := db.tasks

/-- `POST /tasks` (main.py lines 54-65): builds a `Task` from the validated
body and inserts it; returns the refreshed record.  `now` is the store
clock at commit time. -/
def create_task (task : TaskCreate) (db : Store) (now : Nat) : Task × Store :=
  db.insert task.title task.description task.completed now

/-- `GET /tasks/{task_id}` (main.py lines 67-73). -/
def get_task (task_id : Nat) (db : Store) : Except HTTPError Task :=
  match db.queryFirst task_id with
  | none => .error taskNotFound
  | some t => .ok t

/-- The three `if task.field is not None` mutations of `update_task`
(main.py lines 82-87), applied to the fetched row. -/
def applyUpdate (task : TaskUpdate) (db_task : Task) : Task :=
  let t1 := match task.title with
    | some v => { db_task with title := v }
    | none => db_task
  let t2 := match task.description with
    | some v => { t1 with description := some v }
    | none => t1
  match task.completed with
  | some v => { t2 with completed := v }
  | none => t2

/-- `PUT /tasks/{task_id}` (main.py lines 75-91): 404 before any mutation
when the id is absent, otherwise mutate the supplied fields and commit.
The second component is the store state after the request. -/
def update_task (task_id : Nat) (task : TaskUpdate) (db : Store) :
    Except HTTPError Task × Store :=
  match db.queryFirst task_id with
  | none => (.error taskNotFound, db)
  | some db_task =>
    let t := applyUpdate task db_task
    (.ok t, db.commitUpdate t)

/-- `DELETE /tasks/{task_id}` (main.py lines 93-102): 404 before any
mutation when the id is absent, otherwise delete the fetched row. -/
def delete_task (task_id : Nat) (db : Store) :
    Except HTTPError String × Store :=
  match db.queryFirst task_id with
  | none => (.error taskNotFound, db)
  | some db_task =>
    (.ok "Task deleted successfully", db.deleteById db_task.id)

/-! ### Concrete sample data used by the witnesses -/

def sampleTask : Task := ⟨1, "Original", some "Keep This", false, 5⟩

def sampleStore : Store := ⟨[sampleTask], 2⟩

/-! ### Helper lemmas -/

theorem queryFirst_mem {s : Store} {id : Nat} {t : Task}
    (h : s.queryFirst id = some t) : t ∈ s.tasks :=
  List.mem_of_find?_eq_some h

theorem queryFirst_id {s : Store} {id : Nat} {t : Task}
    (h : s.queryFirst id = some t) : t.id = id := by
  have hp := List.find?_some h
  simpa using hp

theorem WF_nodup_ids {s : Store} (h : s.WF) : (s.tasks.map Task.id).Nodup :=
  h.2.imp Nat.ne_of_lt

theorem WF_id_injective {s : Store} (h : s.WF) {t u : Task}
    (ht : t ∈ s.tasks) (hu : u ∈ s.tasks) (hid : t.id = u.id) : t = u :=
  List.inj_on_of_nodup_map (WF_nodup_ids h) ht hu hid

theorem applyUpdate_id (u : TaskUpdate) (t : Task) :
    (applyUpdate u t).id = t.id := by
  rcases u with ⟨ut, ud, uc⟩
  cases ut <;> cases ud <;> cases uc <;> rfl

theorem applyUpdate_created_at (u : TaskUpdate) (t : Task) :
    (applyUpdate u t).created_at = t.created_at := by
  rcases u with ⟨ut, ud, uc⟩
  cases ut <;> cases ud <;> cases uc <;> rfl

theorem applyUpdate_title (u : TaskUpdate) (t : Task) :
    (applyUpdate u t).title = u.title.getD t.title := by
  rcases u with ⟨ut, ud, uc⟩
  cases ut <;> cases ud <;> cases uc <;> rfl

theorem applyUpdate_description (u : TaskUpdate) (t : Task) :
    (applyUpdate u t).description =
      (match u.description with
       | some v => some v
       | none => t.description) := by
  rcases u with ⟨ut, ud, uc⟩
  cases ut <;> cases ud <;> cases uc <;> rfl

theorem applyUpdate_completed (u : TaskUpdate) (t : Task) :
    (applyUpdate u t).completed = u.completed.getD t.completed := by
  rcases u with ⟨ut, ud, uc⟩
  cases ut <;> cases ud <;> cases uc <;> rfl

theorem commitUpdate_ids (s : Store) (t : Task) :
    (s.commitUpdate t).tasks.map Task.id = s.tasks.map Task.id := by
  unfold Store.commitUpdate
  rw [List.map_map]
  apply List.map_congr_left
  intro u _
  by_cases hc : u.id = t.id
  · simp [Function.comp, hc]
  · simp [Function.comp, hc]

theorem WF_of_ids_eq {s s' : Store} (h : s.WF)
    (hids : s'.tasks.map Task.id = s.tasks.map Task.id)
    (hn : s'.nextId = s.nextId) : s'.WF := by
  constructor
  · intro t ht
    have hm : t.id ∈ s'.tasks.map Task.id := List.mem_map_of_mem Task.id ht
    rw [hids] at hm
    obtain ⟨u, hu, hid⟩ := List.mem_map.mp hm
    rw [hn, ← hid]
    exact h.1 u hu
  · rw [hids]
    exact h.2

theorem mem_deleteById {s : Store} {id : Nat} {u : Task} :
    u ∈ (s.deleteById id).tasks ↔ u ∈ s.tasks ∧ u.id ≠ id := by
  simp [Store.deleteById, List.mem_filter]

theorem queryFirst_deleteById (s : Store) (id : Nat) :
    (s.deleteById id).queryFirst id = none := by
  unfold Store.queryFirst
  rw [List.find?_eq_none]
  intro x hx
  have hne := (mem_deleteById.mp hx).2
  simpa using hne

theorem insert_WF (s : Store) (title : String) (descr : Option String)
    (completed : Bool) (now : Nat) (h : s.WF) :
    (s.insert title descr completed now).2.WF := by
  constructor
  · intro t ht
    unfold Store.insert at ht
    rcases List.mem_append.mp ht with ht | ht
    · exact Nat.lt_succ_of_lt (h.1 t ht)
    · rw [List.mem_singleton.mp ht]
      exact Nat.lt_succ_self _
  · show ((s.tasks ++ [_]).map Task.id).Pairwise (· < ·)
    rw [List.map_append, List.pairwise_append]
    refine ⟨h.2, List.pairwise_singleton _ _, ?_⟩
    intro x hx y hy
    rw [List.mem_singleton.mp hy]
    obtain ⟨u, hu, rfl⟩ := List.mem_map.mp hx
    exact h.1 u hu

theorem deleteById_WF (s : Store) (id : Nat) (h : s.WF) :
    (s.deleteById id).WF := by
  constructor
  · intro t ht
    exact h.1 t (mem_deleteById.mp ht).1
  · have hsub : List.Sublist ((s.deleteById id).tasks.map Task.id)
        (s.tasks.map Task.id) :=
      (List.filter_sublist s.tasks).map Task.id
    exact h.2.sublist hsub

theorem update_preserves_ids (db : Store) (id : Nat) (u : TaskUpdate) :
    (update_task id u db).2.tasks.map Task.id = db.tasks.map Task.id := by
  unfold update_task
  cases hq : db.queryFirst id with
  | none => rfl
  | some db_task => exact commitUpdate_ids db _

theorem update_preserves_nextId (db : Store) (id : Nat) (u : TaskUpdate) :
    (update_task id u db).2.nextId = db.nextId := by
  unfold update_task
  cases hq : db.queryFirst id with
  | none => rfl
  | some db_task => rfl

theorem update_preserves_created_at (db : Store) (h : db.WF) (id : Nat)
    (u : TaskUpdate) :
    (update_task id u db).2.tasks.map Task.created_at =
      db.tasks.map Task.created_at := by
  unfold update_task
  cases hq : db.queryFirst id with
  | none => rfl
  | some db_task =>
    show (db.commitUpdate (applyUpdate u db_task)).tasks.map Task.created_at = _
    unfold Store.commitUpdate
    rw [List.map_map]
    apply List.map_congr_left
    intro x hx
    by_cases hc : x.id = (applyUpdate u db_task).id
    · have hx_eq : x = db_task := by
        apply WF_id_injective h hx (queryFirst_mem hq)
        rw [hc, applyUpdate_id]
      simp [Function.comp, hc, hx_eq, applyUpdate_created_at, applyUpdate_id]
    · simp [Function.comp, hc]

theorem commitUpdate_self (db : Store) (h : db.WF) {t : Task}
    (ht : t ∈ db.tasks) : db.commitUpdate t = db := by
  have hmap : db.tasks.map (fun u => if u.id == t.id then t else u) = db.tasks := by
    have hcongr : db.tasks.map (fun u => if u.id == t.id then t else u) =
        db.tasks.map (fun u => u) := by
      apply List.map_congr_left
      intro x hx
      by_cases hc : x.id = t.id
      · have hx_eq : x = t := WF_id_injective h hx ht hc
        simp [hx_eq]
      · simp [hc]
    rw [hcongr, List.map_id']
  show Store.mk _ _ = db
  rw [hmap]

theorem delete_task_WF (db : Store) (h : db.WF) (id : Nat) :
    (delete_task id db).2.WF := by
  unfold delete_task
  cases hq : db.queryFirst id with
  | none => exact h
  | some t => exact deleteById_WF db t.id h

theorem queryFirst_create (db : Store) (h : db.WF) (tc : TaskCreate)
    (now : Nat) :
    (create_task tc db now).2.queryFirst db.nextId =
      some (create_task tc db now).1 := by
  show (db.tasks ++ [_]).find? (fun (t : Task) => t.id == db.nextId) = _
  rw [List.find?_append]
  have h1 : db.tasks.find? (fun t => t.id == db.nextId) = none := by
    rw [List.find?_eq_none]
    intro x hx
    simp only [beq_iff_eq]
    exact Nat.ne_of_lt (h.1 x hx)
  rw [h1]
  simp [List.find?]
  rfl

/-! ### Claim theorems -/

/-- C1: For every task in the store and every PUT /tasks/{id} body
supplying a subset of the three mutable fields, the update succeeds and
changes exactly the supplied fields: each omitted field keeps its prior
value (in particular `id` and `created_at` are never touched). -/
theorem update_touches_only_supplied_fields (db : Store) (id : Nat)
    (u : TaskUpdate) (t0 : Task) (h : db.queryFirst id = some t0) :
    ∃ t1 db1, update_task id u db = (.ok t1, db1) ∧
      t1.title = u.title.getD t0.title ∧
      t1.description =
        (match u.description with
         | some v => some v
         | none => t0.description) ∧
      t1.completed = u.completed.getD t0.completed ∧
      t1.id = t0.id ∧ t1.created_at = t0.created_at := by
  refine ⟨applyUpdate u t0, db.commitUpdate (applyUpdate u t0),
    ?_, applyUpdate_title u t0, applyUpdate_description u t0,
    applyUpdate_completed u t0, applyUpdate_id u t0,
    applyUpdate_created_at u t0⟩
  unfold update_task
  rw [h]

/-- Witness for C1: updating only the title of the sample task leaves its
description and completed flag unchanged. -/
theorem update_touches_only_supplied_fields_witness :
    sampleStore.queryFirst 1 = some sampleTask ∧
    ∃ t1 db1,
      update_task 1 ⟨some "New Title", none, none⟩ sampleStore = (.ok t1, db1) ∧
      t1.title = (some "New Title").getD sampleTask.title ∧
      t1.description =
        (match (none : Option String) with
         | some v => some v
         | none => sampleTask.description) ∧
      t1.completed = (none : Option Bool).getD sampleTask.completed ∧
      t1.id = sampleTask.id ∧ t1.created_at = sampleTask.created_at :=
  ⟨by decide,
   update_touches_only_supplied_fields sampleStore 1
     ⟨some "New Title", none, none⟩ sampleTask (by decide)⟩

/-- C2: GET /tasks returns every record of the store (and nothing else) as
a finite list whose ids are strictly ascending, i.e. in insertion order;
on the empty store it returns the empty list, never an error. -/
theorem get_tasks_returns_all_in_insertion_order (db : Store) (h : db.WF) :
    (∀ t, t ∈ get_tasks db ↔ t ∈ db.tasks) ∧
    ((get_tasks db).map Task.id).Pairwise (· < ·) ∧
    get_tasks Store.empty = [] :=
  ⟨fun _ => Iff.rfl, h.2, rfl⟩

/-- Witness for C2 at the sample store. -/
theorem get_tasks_returns_all_in_insertion_order_witness :
    sampleStore.WF ∧
    ((∀ t, t ∈ get_tasks sampleStore ↔ t ∈ sampleStore.tasks) ∧
     ((get_tasks sampleStore).map Task.id).Pairwise (· < ·) ∧
     get_tasks Store.empty = []) :=
  ⟨by decide, get_tasks_returns_all_in_insertion_order sampleStore (by decide)⟩

/-- C3: POST /tasks with a body supplying only `title` creates a task whose
description is the empty string (not null), whose completed flag is false,
whose id is the store's next identity value, and whose created_at is the
store clock at insertion. -/
theorem create_title_only_defaults (db : Store) (now : Nat) (title : String) :
    (create_task (validateCreate ⟨title, .omitted, none⟩) db now).1.title = title ∧
    (create_task (validateCreate ⟨title, .omitted, none⟩) db now).1.description = some "" ∧
    (create_task (validateCreate ⟨title, .omitted, none⟩) db now).1.completed = false ∧
    (create_task (validateCreate ⟨title, .omitted, none⟩) db now).1.id = db.nextId ∧
    (create_task (validateCreate ⟨title, .omitted, none⟩) db now).1.created_at = now :=
  ⟨rfl, rfl, rfl, rfl, rfl⟩

/-- C4: GET, PUT and DELETE on an id absent from the store all answer with
status 404 and detail "Task not found". -/
theorem missing_id_gives_404 (db : Store) (id : Nat) (u : TaskUpdate)
    (h : db.queryFirst id = none) :
    get_task id db = .error ⟨404, "Task not found"⟩ ∧
    (update_task id u db).1 = .error ⟨404, "Task not found"⟩ ∧
    (delete_task id db).1 = .error ⟨404, "Task not found"⟩ := by
  unfold get_task update_task delete_task
  rw [h]
  exact ⟨rfl, rfl, rfl⟩

/-- Witness for C4: id 9999 is absent from the sample store. -/
theorem missing_id_gives_404_witness :
    sampleStore.queryFirst 9999 = none ∧
    (get_task 9999 sampleStore = .error ⟨404, "Task not found"⟩ ∧
     (update_task 9999 ⟨none, none, none⟩ sampleStore).1 = .error ⟨404, "Task not found"⟩ ∧
     (delete_task 9999 sampleStore).1 = .error ⟨404, "Task not found"⟩) :=
  ⟨by decide, missing_id_gives_404 sampleStore 9999 ⟨none, none, none⟩ (by decide)⟩

/-- C5: DELETE on a present id succeeds and removes exactly that record:
the surviving list is the prior list minus the records with that id, a
subsequent GET of that id answers 404, and a second DELETE of the same id
answers 404 leaving the store as it was after the first delete. -/
theorem delete_removes_exactly_that_record (db : Store) (id : Nat) (t : Task)
    (h : db.queryFirst id = some t) :
    ∃ db1, delete_task id db = (.ok "Task deleted successfully", db1) ∧
      (∀ u, u ∈ get_tasks db1 ↔ u ∈ get_tasks db ∧ u.id ≠ id) ∧
      get_task id db1 = .error taskNotFound ∧
      delete_task id db1 = (.error taskNotFound, db1) := by
  have hid := queryFirst_id h
  refine ⟨db.deleteById t.id, ?_, ?_, ?_, ?_⟩
  · unfold delete_task
    rw [h]
  · intro u
    rw [hid]
    exact mem_deleteById
  · unfold get_task
    rw [hid, queryFirst_deleteById]
  · unfold delete_task
    rw [hid, queryFirst_deleteById]

/-- Witness for C5: deleting the sample task (id 1) from the sample
store. -/
theorem delete_removes_exactly_that_record_witness :
    sampleStore.queryFirst 1 = some sampleTask ∧
    ∃ db1, delete_task 1 sampleStore = (.ok "Task deleted successfully", db1) ∧
      (∀ u, u ∈ get_tasks db1 ↔ u ∈ get_tasks sampleStore ∧ u.id ≠ 1) ∧
      get_task 1 db1 = .error taskNotFound ∧
      delete_task 1 db1 = (.error taskNotFound, db1) :=
  ⟨by decide, delete_removes_exactly_that_record sampleStore 1 sampleTask (by decide)⟩

/-- C6: every operation preserves the store invariants: ids stay unique
(part of well-formedness), creation assigns the fresh id and stamps
`created_at` with the store clock regardless of the client body, an update
leaves the per-record ids and creation timestamps unchanged whatever the
client body supplies, and deletion preserves well-formedness. -/
theorem operations_preserve_invariants (db : Store) (h : db.WF) :
    (∀ tc now, (create_task tc db now).2.WF ∧
       (create_task tc db now).1.id = db.nextId ∧
       (create_task tc db now).1.created_at = now) ∧
    (∀ id u, (update_task id u db).2.WF ∧
       (update_task id u db).2.tasks.map Task.id = db.tasks.map Task.id ∧
       (update_task id u db).2.tasks.map Task.created_at =
         db.tasks.map Task.created_at) ∧
    (∀ id, (delete_task id db).2.WF) := by
  refine ⟨fun tc now =>
      ⟨insert_WF db tc.title tc.description tc.completed now h, rfl, rfl⟩,
    fun id u => ⟨?_, update_preserves_ids db id u,
      update_preserves_created_at db h id u⟩,
    fun id => delete_task_WF db h id⟩
  exact WF_of_ids_eq h (update_preserves_ids db id u)
    (update_preserves_nextId db id u)

/-- Witness for C6: instances of the invariant preservation at the sample
store, for a concrete create, update and delete. -/
theorem operations_preserve_invariants_witness :
    sampleStore.WF ∧
    (create_task ⟨"A", none, false⟩ sampleStore 7).2.WF ∧
    (update_task 1 ⟨some "B", none, some true⟩ sampleStore).2.tasks.map
      Task.created_at = sampleStore.tasks.map Task.created_at ∧
    (delete_task 1 sampleStore).2.WF :=
  ⟨by decide,
   ((operations_preserve_invariants sampleStore (by decide)).1
     ⟨"A", none, false⟩ 7).1,
   ((operations_preserve_invariants sampleStore (by decide)).2.1
     1 ⟨some "B", none, some true⟩).2.2,
   (operations_preserve_invariants sampleStore (by decide)).2.2 1⟩

/-- C7: a GET of the id just assigned by POST /tasks returns exactly the
creation response (read-after-create round trip). -/
theorem read_after_create (db : Store) (h : db.WF) (tc : TaskCreate)
    (now : Nat) :
    get_task (create_task tc db now).1.id (create_task tc db now).2 =
      .ok (create_task tc db now).1 := by
  unfold get_task
  have hid : (create_task tc db now).1.id = db.nextId := rfl
  rw [hid, queryFirst_create db h tc now]

/-- Witness for C7 at the sample store. -/
theorem read_after_create_witness :
    sampleStore.WF ∧
    get_task (create_task ⟨"A", some "d", true⟩ sampleStore 7).1.id
        (create_task ⟨"A", some "d", true⟩ sampleStore 7).2 =
      .ok (create_task ⟨"A", some "d", true⟩ sampleStore 7).1 :=
  ⟨by decide, read_after_create sampleStore (by decide) ⟨"A", some "d", true⟩ 7⟩

/-- C8: a PUT or DELETE that answers 404 leaves the store state exactly as
it was: nothing is modified, added or removed. -/
theorem failed_put_delete_leave_store_unchanged (db : Store) (id : Nat)
    (u : TaskUpdate) :
    ((update_task id u db).1 = .error taskNotFound →
      (update_task id u db).2 = db) ∧
    ((delete_task id db).1 = .error taskNotFound →
      (delete_task id db).2 = db) := by
  constructor
  · intro herr
    unfold update_task at herr ⊢
    cases hq : db.queryFirst id with
    | none => rfl
    | some t =>
      rw [hq] at herr
      exact absurd herr (by simp)
  · intro herr
    unfold delete_task at herr ⊢
    cases hq : db.queryFirst id with
    | none => rfl
    | some t =>
      rw [hq] at herr
      exact absurd herr (by simp)

/-- Witness for C8: the failed update and delete of absent id 9999 leave
the sample store unchanged. -/
theorem failed_put_delete_leave_store_unchanged_witness :
    (update_task 9999 ⟨some "X", none, none⟩ sampleStore).2 = sampleStore ∧
    (delete_task 9999 sampleStore).2 = sampleStore :=
  ⟨(failed_put_delete_leave_store_unchanged sampleStore 9999
      ⟨some "X", none, none⟩).1 rfl,
   (failed_put_delete_leave_store_unchanged sampleStore 9999
      ⟨some "X", none, none⟩).2 rfl⟩

/-- C9: a PUT body with every field explicitly null validates to the same
`TaskUpdate` as the empty body, and such an update is an identity: it
answers 200 with the task and store unchanged; moreover no update can ever
reset a non-null description to null. -/
theorem null_update_is_identity (db : Store) (h : db.WF) (id : Nat)
    (t : Task) (hq : db.queryFirst id = some t) :
    validateUpdate ⟨.null, .null, .null⟩ =
      validateUpdate ⟨.omitted, .omitted, .omitted⟩ ∧
    update_task id (validateUpdate ⟨.null, .null, .null⟩) db = (.ok t, db) ∧
    (∀ u t1 db1, update_task id u db = (.ok t1, db1) →
      t.description ≠ none → t1.description ≠ none) := by
  refine ⟨rfl, ?_, ?_⟩
  · unfold update_task
    rw [hq]
    show (Except.ok t, db.commitUpdate t) = (.ok t, db)
    rw [commitUpdate_self db h (queryFirst_mem hq)]
  · intro u t1 db1 heq hdesc
    unfold update_task at heq
    rw [hq] at heq
    have h1 : Except.ok (applyUpdate u t) = Except.ok t1 :=
      congrArg Prod.fst heq
    have h2 : applyUpdate u t = t1 := by
      injection h1
    rw [← h2, applyUpdate_description]
    cases hd : u.description with
    | none => exact hdesc
    | some v => simp

/-- Witness for C9: the all-null update of the sample task is an
identity. -/
theorem null_update_is_identity_witness :
    sampleStore.WF ∧ sampleStore.queryFirst 1 = some sampleTask ∧
    update_task 1 (validateUpdate ⟨.null, .null, .null⟩) sampleStore =
      (.ok sampleTask, sampleStore) :=
  ⟨by decide, by decide,
   (null_update_is_identity sampleStore (by decide) 1 sampleTask
     (by decide)).2.1⟩

/-- C10: POST /tasks with `description` explicitly null creates a task
whose description is null, not the empty string; the `""` default applies
exactly when the field is omitted from the body. -/
theorem create_with_null_description (db : Store) (now : Nat)
    (title : String) (c : Option Bool) :
    (create_task (validateCreate ⟨title, .null, c⟩) db now).1.description =
      none ∧
    (create_task (validateCreate ⟨title, .omitted, c⟩) db now).1.description =
      some "" :=
  ⟨rfl, rfl⟩

end TodoApi
